import Mathlib

/-
Verification of the resume-parser repository (src/parser.py, src/utils.py,
src/app.py, src/pydantic_models_prompts.py) against its specification.

The embedding models Python values as an inductive type, Python dicts as
insertion-ordered association lists (matching CPython's dict semantics),
`json.loads` as a fuel-based recursive-descent parser, and the `re` module's
`findall` as a backtracking matcher over an AST of the exact regex literals
appearing in the source.  The external language-model service is an oracle
parameter of type `Except Unit String`: `.error` models a raised exception
(network error / timeout), `.ok s` models a reply with body `s`.
-/

namespace ResumeParser

/-- Model of a Python/JSON value.  Floats keep their JSON lexeme (no claim
depends on float arithmetic); dicts are insertion-ordered association lists,
as in CPython. -/
inductive PyVal where
  | vnone
  | vbool (b : Bool)
  | vint (n : Int)
  | vfloat (raw : String)
  | vstr (s : String)
  | vlist (l : List PyVal)
  | vdict (m : List (String × PyVal))

abbrev PyDict := List (String × PyVal)

/-- Python `d[k]` lookup on a dict (first occurrence; dict keys are unique). -/
def dictGet? (m : PyDict) (k : String) : Option PyVal :=
  match m with
  | [] => none
  | (k', v) :: rest => if k' = k then some v else dictGet? rest k

/-- Python `d[k] = v`: update in place when the key exists (keeping its
insertion position), append otherwise. -/
def dictSet (m : PyDict) (k : String) (v : PyVal) : PyDict :=
  match m with
  | [] => [(k, v)]
  | (k', v') :: rest => if k' = k then (k', v) :: rest else (k', v') :: dictSet rest k v

/-- Python truthiness.  A JSON float is falsy exactly when its mantissa
digits are all zero, i.e. the lexeme has no nonzero digit. -/
def pyTruthy : PyVal → Bool
  | .vnone => false
  | .vbool b => b
  | .vint n => n != 0
  | .vfloat raw => raw.toList.any fun c => c.isDigit && c != '0'
  | .vstr s => s != ""
  | .vlist l => !l.isEmpty
  | .vdict m => !m.isEmpty

def PyVal.isList : PyVal → Bool
  | .vlist _ => true
  | _ => false

def PyVal.isDict : PyVal → Bool
  | .vdict _ => true
  | _ => false

/-- Contiguous-sublist test, modelling Python's `needle in haystack` for
strings. -/
def listContains (needle : List Char) : List Char → Bool
  | [] => needle.isEmpty
  | c :: cs => needle.isPrefixOf (c :: cs) || listContains needle cs

/-- Python `needle in hay` on strings (substring test). -/
def pySubstr (needle hay : String) : Bool :=
  listContains needle.toList hay.toList

/-- Python `str.lower()` (ASCII), via a structurally recursive map (the
core `String.toLower` is defined by well-founded recursion on byte
positions, which the kernel cannot evaluate). -/
def pyLower (s : String) : String :=
  String.mk (s.toList.map Char.toLower)

/-- Python `s.split(sep)` for a one-character separator (the only shapes
the source uses: `'\n'` and `','`), structurally recursive. -/
def splitOnCharAux (sep : Char) : List Char → List Char → List (List Char)
  | acc, [] => [acc.reverse]
  | acc, c :: cs =>
    if c = sep then acc.reverse :: splitOnCharAux sep [] cs
    else splitOnCharAux sep (c :: acc) cs

def pySplitOn (sep : Char) (s : String) : List String :=
  (splitOnCharAux sep [] s.toList).map String.mk

/-- Python `k in v` for a string `k`: key test on dicts, substring test on
strings, element equality on lists; `TypeError` (modelled as `.error`) on
non-iterables. -/
def pyIn (k : String) : PyVal → Except Unit Bool
  | .vdict m => .ok (dictGet? m k).isSome
  | .vstr s => .ok (pySubstr k s)
  | .vlist l => .ok (l.any fun v => match v with | .vstr s => s == k | _ => false)
  | _ => .error ()

/-- Python `v[k]` for a string key `k`: dict lookup (`KeyError` when absent),
`TypeError` on anything else (string/list indices must be integers). -/
def pySubscript : PyVal → String → Except Unit PyVal
  | .vdict m, k => match dictGet? m k with
      | some v => .ok v
      | none => .error ()
  | _, _ => .error ()

/-! ## Model of `json.loads`

A fuel-based recursive-descent parser producing `PyVal`.  Python dict
semantics for duplicate object keys (last value wins, first position kept)
come for free from `dictSet`.  Number lexemes are kept raw when they are not
plain integers. -/

def jsonWs (c : Char) : Bool :=
  c = ' ' || c = '\t' || c = '\n' || c = '\r'

def skipWs : List Char → List Char
  | [] => []
  | c :: cs => if jsonWs c then skipWs cs else c :: cs

def hexVal? (c : Char) : Option Nat :=
  if c.isDigit then some (c.toNat - '0'.toNat)
  else if 'a' ≤ c ∧ c ≤ 'f' then some (c.toNat - 'a'.toNat + 10)
  else if 'A' ≤ c ∧ c ≤ 'F' then some (c.toNat - 'A'.toNat + 10)
  else none

/-- Parse the remainder of a JSON string literal (the opening quote has been
consumed), handling the standard escapes. -/
def parseJsonStr : Nat → List Char → List Char → Option (String × List Char)
  | 0, _, _ => none
  | _ + 1, _, [] => (none : Option (String × List Char))
  | fuel + 1, acc, c :: cs =>
    if c = '"' then some (String.mk acc.reverse, cs)
    else if c = '\\' then
      match cs with
      | [] => none
      | e :: cs' =>
        if e = '"' then parseJsonStr fuel ('"' :: acc) cs'
        else if e = '\\' then parseJsonStr fuel ('\\' :: acc) cs'
        else if e = '/' then parseJsonStr fuel ('/' :: acc) cs'
        else if e = 'b' then parseJsonStr fuel ('\x08' :: acc) cs'
        else if e = 'f' then parseJsonStr fuel ('\x0c' :: acc) cs'
        else if e = 'n' then parseJsonStr fuel ('\n' :: acc) cs'
        else if e = 'r' then parseJsonStr fuel ('\r' :: acc) cs'
        else if e = 't' then parseJsonStr fuel ('\t' :: acc) cs'
        else if e = 'u' then
          match cs' with
          | h1 :: h2 :: h3 :: h4 :: cs'' =>
            match hexVal? h1, hexVal? h2, hexVal? h3, hexVal? h4 with
            | some a, some b, some c3, some d =>
              parseJsonStr fuel (Char.ofNat (((a * 16 + b) * 16 + c3) * 16 + d) :: acc) cs''
            | _, _, _, _ => none
          | _ => none
        else none
    else parseJsonStr fuel (c :: acc) cs

def numChar (c : Char) : Bool :=
  c.isDigit || c = '.' || c = 'e' || c = 'E' || c = '+' || c = '-'

def digitsToNat (l : List Char) : Nat :=
  l.foldl (fun acc c => acc * 10 + (c.toNat - '0'.toNat)) 0

/-- Lex a JSON number starting at the current position and classify it as an
integer or a float lexeme.  The full JSON number grammar is not re-validated
beyond requiring a leading digit (after an optional minus sign); no claim
depends on malformed number lexemes. -/
def parseJsonNum (s : List Char) : Option (PyVal × List Char) :=
  let neg := s.headD ' ' = '-'
  let body := if neg then s.tail else s
  let lexeme := body.takeWhile numChar
  let rest := body.dropWhile numChar
  if lexeme.isEmpty || !(lexeme.headD ' ').isDigit then none
  else if lexeme.all Char.isDigit then
    let n : Int := Int.ofNat (digitsToNat lexeme)
    some (.vint (if neg then -n else n), rest)
  else
    some (.vfloat (String.mk (if neg then '-' :: lexeme else lexeme)), rest)

mutual

def parseJsonVal : Nat → List Char → Option (PyVal × List Char)
  | 0, _ => none
  | fuel + 1, s =>
    match skipWs s with
    | [] => none
    | c :: cs =>
      if c = '{' then parseJsonMembers fuel [] true cs
      else if c = '[' then parseJsonItems fuel [] true cs
      else if c = '"' then
        match parseJsonStr (cs.length + 1) [] cs with
        | some (str, rest) => some (.vstr str, rest)
        | none => none
      else if "true".toList.isPrefixOf (c :: cs) then
        some (.vbool true, (c :: cs).drop 4)
      else if "false".toList.isPrefixOf (c :: cs) then
        some (.vbool false, (c :: cs).drop 5)
      else if "null".toList.isPrefixOf (c :: cs) then
        some (.vnone, (c :: cs).drop 4)
      else parseJsonNum (c :: cs)

/-- Parse object members; `first` is true before the first member.  Members
accumulate through `dictSet`, which reproduces Python's duplicate-key
behaviour (last value wins, first insertion position kept). -/
def parseJsonMembers : Nat → PyDict → Bool → List Char → Option (PyVal × List Char)
  | 0, _, _, _ => none
  | fuel + 1, acc, first, s =>
    match skipWs s with
    | [] => none
    | c :: cs =>
      if c = '}' then some (.vdict acc, cs)
      else
        match (if first then some (c :: cs) else if c = ',' then some cs else none) with
        | none => none
        | some s' =>
          match skipWs s' with
          | '"' :: cs' =>
            match parseJsonStr (cs'.length + 1) [] cs' with
            | some (key, rest) =>
              match skipWs rest with
              | ':' :: rest' =>
                match parseJsonVal fuel rest' with
                | some (v, rest'') => parseJsonMembers fuel (dictSet acc key v) false rest''
                | none => none
              | _ => none
            | none => none
          | _ => none

/-- Parse array items; `first` is true before the first item. -/
def parseJsonItems : Nat → List PyVal → Bool → List Char → Option (PyVal × List Char)
  | 0, _, _, _ => none
  | fuel + 1, acc, first, s =>
    match skipWs s with
    | [] => none
    | c :: cs =>
      if c = ']' then some (.vlist acc.reverse, cs)
      else
        match (if first then some (c :: cs) else if c = ',' then some cs else none) with
        | none => none
        | some s' =>
          match parseJsonVal fuel s' with
          | some (v, rest) => parseJsonItems fuel (v :: acc) false rest
          | none => none

end

/-- Model of `json.loads`: parse one JSON value and require only whitespace
after it; `none` models a raised `json.JSONDecodeError`. -/
def pyParse (s : String) : Option PyVal :=
  match parseJsonVal (2 * s.length + 16) s.toList with
  | some (v, rest) => if (skipWs rest).isEmpty then some v else none
  | none => none

/-! ## Model of the `re` module

The source uses a handful of fixed regex literals.  They are embedded as an
AST (`RE`) and executed by a backtracking matcher in continuation-passing
style, reproducing Python's leftmost match with greedy, backtracking
quantifiers and left-preferring alternation.  A single capturing group is
supported, because `re.findall` returns the group capture — not the whole
match — when the pattern has exactly one group (this is load-bearing for the
phone-number and job-title patterns). -/

inductive RE where
  | eps
  | ch (c : Char)
  | lit (s : List Char)
  | cls (p : Char → Bool)
  | seq (a b : RE)
  | alt (a b : RE)
  | opt (a : RE)
  | rep (p : Char → Bool) (lo : Nat) (hi : Option Nat)
  | grp (a : RE)
  | wb

/-- Matcher state: the character just before the current position (for word
boundaries), the remaining input, and the capture of group 1, if any. -/
structure MSt where
  prev : Option Char
  rest : List Char
  grp1 : Option (List Char)

def isWordChar (c : Char) : Bool := c.isAlphanum || c = '_'

def atWordBoundary (prev : Option Char) (rest : List Char) : Bool :=
  let l := match prev with | some c => isWordChar c | none => false
  let r := match rest with | c :: _ => isWordChar c | [] => false
  l != r

/-- Run regex `re` on state `st` with continuation `k`; backtracking is full:
a construct only commits to a local choice if the continuation succeeds. -/
def mrun : Nat → RE → MSt → (MSt → Option MSt) → Option MSt
  | 0, _, _, _ => none
  | fuel + 1, re, st, k =>
    match re with
    | .eps => k st
    | .ch c =>
      match st.rest with
      | x :: xs => if x = c then k ⟨some x, xs, st.grp1⟩ else none
      | [] => none
    | .lit s =>
      if s.isPrefixOf st.rest then
        k ⟨match s.getLast? with | some c => some c | none => st.prev,
           st.rest.drop s.length, st.grp1⟩
      else none
    | .cls p =>
      match st.rest with
      | x :: xs => if p x then k ⟨some x, xs, st.grp1⟩ else none
      | [] => none
    | .seq a b => mrun fuel a st fun st' => mrun fuel b st' k
    | .alt a b =>
      match mrun fuel a st k with
      | some r => some r
      | none => mrun fuel b st k
    | .opt a =>
      match mrun fuel a st k with
      | some r => some r
      | none => k st
    | .rep p lo hi =>
      let canMore := match hi with | some h => h != 0 | none => true
      let more :=
        if canMore then
          match st.rest with
          | x :: xs =>
            if p x then
              mrun fuel (.rep p (lo - 1) (hi.map (· - 1))) ⟨some x, xs, st.grp1⟩ k
            else none
          | [] => none
        else none
      match more with
      | some r => some r
      | none => if lo = 0 then k st else none
    | .grp a =>
      let n0 := st.rest.length
      mrun fuel a st fun st' =>
        k { st' with grp1 := some (st.rest.take (n0 - st'.rest.length)) }
    | .wb => if atWordBoundary st.prev st.rest then k st else none

/-- Scan for successive non-overlapping leftmost matches, as `re.findall`
does; `useGrp` selects the group-1 capture (with `''` for a non-participating
group) instead of the whole match, which is what `findall` returns when the
pattern has exactly one capturing group. -/
def scanMatches (re : RE) (useGrp : Bool) : Nat → Option Char → List Char → List String
  | 0, _, _ => []
  | fuel + 1, prev, s =>
    match mrun (s.length + 200) re ⟨prev, s, none⟩ some with
    | some st' =>
      let n := s.length - st'.rest.length
      let token := if useGrp then String.mk (st'.grp1.getD []) else String.mk (s.take n)
      if n = 0 then
        -- zero-width match: record it and advance one character
        match s with
        | [] => [token]
        | c :: cs => token :: scanMatches re useGrp fuel (some c) cs
      else token :: scanMatches re useGrp fuel st'.prev st'.rest
    | none =>
      match s with
      | [] => []
      | c :: cs => scanMatches re useGrp fuel (some c) cs

/-- Model of `re.findall(pattern, content)` for the source's patterns. -/
def refindall (re : RE) (useGrp : Bool) (s : String) : List String :=
  scanMatches re useGrp (s.length + 1) none s.toList

/-- Right-nested sequencing of a component list. -/
def rseq (l : List RE) : RE := l.foldr RE.seq RE.eps

/-- Left-preferring alternation of alternatives, in source order. -/
def ralts : List RE → RE
  | [] => RE.eps
  | [r] => r
  | r :: rest => RE.alt r (ralts rest)

def rlit (s : String) : RE := RE.lit s.toList

/-! ## src/utils.py — patterns and contact extraction -/

/-- Python `\s` for ASCII text. -/
def pySpace (c : Char) : Bool :=
  c = ' ' || c = '\t' || c = '\n' || c = '\r' || c = '\x0b' || c = '\x0c'

/-- Python `str.strip()`. -/
def pyStrip (s : String) : String :=
  String.mk (((s.toList.dropWhile pySpace).reverse.dropWhile pySpace).reverse)

def emailLocalChar (c : Char) : Bool :=
  c.isAlphanum || c = '.' || c = '_' || c = '%' || c = '+' || c = '-'

def emailDomainChar (c : Char) : Bool := c.isAlphanum || c = '.' || c = '-'

/-- The character class `[A-Z|a-z]` from the source's email patterns: letters
plus a literal pipe. -/
def emailTldChar (c : Char) : Bool := c.isAlpha || c = '|'

/-- utils.py `email_pattern`:
`\b[A-Za-z0-9._%+-]+@[A-Za-z0-9.-]+\.[A-Z|a-z]{2,7}\b` (the `re.IGNORECASE`
flag used with it is inert, as every letter class already covers both
cases). -/
def email_pattern : RE :=
  rseq [.wb, .rep emailLocalChar 1 none, .ch '@', .rep emailDomainChar 1 none,
        .ch '.', .rep emailTldChar 2 (some 7), .wb]

/-- utils.py `phone_pattern`:
`(\+?\d{1,3}[-.\s]?)?\(?\d{3}\)?[-.\s]?\d{3}[-.\s]?\d{4}` — note the single
capturing group around the optional country code. -/
def phoneSep (c : Char) : Bool := c = '-' || c = '.' || pySpace c

def phone_pattern : RE :=
  rseq [.opt (.grp (rseq [.opt (.ch '+'), .rep Char.isDigit 1 (some 3), .opt (.cls phoneSep)])),
        .opt (.ch '('), .rep Char.isDigit 3 (some 3), .opt (.ch ')'), .opt (.cls phoneSep),
        .rep Char.isDigit 3 (some 3), .opt (.cls phoneSep), .rep Char.isDigit 4 (some 4)]

/-- utils.py `extract_emails`, step 1: `re.findall(email_pattern, content,
re.IGNORECASE)` (no capturing group, so whole matches are returned). -/
def findEmails (content : String) : List String :=
  refindall email_pattern false content

/-- utils.py `extract_emails`, step 2: the dedup loop — `seen` holds the
lowercased emails already kept, first-seen entries are kept verbatim. -/
def dedupEmails (seen : List String) : List String → List String
  | [] => []
  | e :: rest =>
    if seen.contains (pyLower e) then dedupEmails seen rest
    else e :: dedupEmails (pyLower e :: seen) rest

/-- utils.py `extract_emails`. -/
def extract_emails (content : String) : List String :=
  dedupEmails [] (findEmails content)

/-- utils.py `extract_phone_numbers`, step 1: `re.findall(phone_pattern,
content)`.  The pattern has exactly one capturing group, so `findall` returns
the group-1 captures (the country-code prefix, `''` when the optional group
did not participate), not the whole matches. -/
def findPhones (content : String) : List String :=
  refindall phone_pattern true content

/-- The class removed by `re.sub(r'[-.\s()]', '', phone)`. -/
def phoneStripChar (c : Char) : Bool :=
  c = '-' || c = '.' || pySpace c || c = '(' || c = ')'

/-- utils.py cleanup of one candidate: `re.sub(r'[-.\s()]', '', phone).strip()`
(the trailing `.strip()` is the identity because all whitespace was already
removed by the substitution). -/
def cleanPhone (s : String) : String :=
  String.mk (s.toList.filter fun c => !phoneStripChar c)

/-- utils.py `extract_phone_numbers`: keep cleaned candidates of length at
least 10. -/
def extract_phone_numbers (content : String) : List String :=
  (findPhones content).filterMap fun p =>
    let cleaned := cleanPhone p
    if 10 ≤ cleaned.length then some cleaned else none

/-! ## src/app.py — deterministic extractors used by `parse_resume_manual` -/

/-- app.py `extract_email`'s pattern:
`\b[A-Za-z0-9._%+-]+@[A-Za-z0-9.-]+\.[A-Z|a-z]{2,}\b` (unbounded TLD length,
unlike the utils.py variant). -/
def app_email_pattern : RE :=
  rseq [.wb, .rep emailLocalChar 1 none, .ch '@', .rep emailDomainChar 1 none,
        .ch '.', .rep emailTldChar 2 none, .wb]

/-- app.py `extract_email` (no dedup). -/
def app_extract_email (text : String) : List String :=
  refindall app_email_pattern false text

def nameDenyWords : List String :=
  ["resume", "cv", "curriculum", "vitae", "phone", "email", "linkedin"]

/-- Python `str.istitle()`: uppercase letters may only follow uncased
characters, lowercase letters may only follow cased ones, and at least one
cased character must occur (ASCII inputs). -/
def istitleAux : Bool → Bool → List Char → Bool
  | _, seenCased, [] => seenCased
  | prevCased, seenCased, c :: cs =>
    if c.isUpper then
      if prevCased then false else istitleAux true true cs
    else if c.isLower then
      if prevCased then istitleAux true true cs else false
    else istitleAux false seenCased cs

def str_istitle (s : String) : Bool := istitleAux false false s.toList

/-- Splitter used by `pySplitWords`, structurally recursive. -/
def splitWsAux : List Char → List Char → List (List Char)
  | acc, [] => [acc.reverse]
  | acc, c :: cs =>
    if pySpace c then acc.reverse :: splitWsAux [] cs
    else splitWsAux (c :: acc) cs

/-- Python `str.split()` with no argument: split on whitespace runs, dropping
empty pieces. -/
def pySplitWords (s : String) : List String :=
  ((splitWsAux [] s.toList).map String.mk).filter fun w => w != ""

/-- app.py `extract_name`'s per-line test plus scan over the first five
lines; the first qualifying line (stripped) wins. -/
def extract_name_scan : List String → String
  | [] => ""
  | l :: rest =>
    let line := pyStrip l
    if line != "" && !(nameDenyWords.any fun w => pySubstr w (pyLower line)) then
      let words := pySplitWords line
      if 2 ≤ words.length ∧ words.length ≤ 4 ∧
          words.all (fun w => w.length ≤ 1 || str_istitle w) then line
      else extract_name_scan rest
    else extract_name_scan rest

/-- app.py `extract_name`. -/
def extract_name (text : String) : String :=
  extract_name_scan ((pySplitOn '\n' text).take 5)

/-- Python regex `.` (any character but a newline), used in `full.stack`. -/
def anyNotNl (c : Char) : Bool := c != '\n'

/-- app.py `parse_resume_manual` title pattern
`\b(senior|junior|lead|principal)\s+[a-z]+\s+[a-z]+\b` (one capturing
group). -/
def title_pattern1 : RE :=
  rseq [.wb, .grp (ralts [rlit "senior", rlit "junior", rlit "lead", rlit "principal"]),
        .rep pySpace 1 none, .rep Char.isLower 1 none,
        .rep pySpace 1 none, .rep Char.isLower 1 none, .wb]

/-- app.py title pattern
`\b(software|web|frontend|backend|full.stack|data|devops|cloud)\s+[a-z]+\b`
(one capturing group; the `.` in `full.stack` is the any-character class). -/
def title_pattern2 : RE :=
  rseq [.wb,
        .grp (ralts [rlit "software", rlit "web", rlit "frontend", rlit "backend",
                     rseq [rlit "full", .cls anyNotNl, rlit "stack"],
                     rlit "data", rlit "devops", rlit "cloud"]),
        .rep pySpace 1 none, .rep Char.isLower 1 none, .wb]

/-- app.py title pattern
`\b(engineer|developer|architect|analyst|scientist|manager|director)\b` (one
capturing group). -/
def title_pattern3 : RE :=
  rseq [.wb,
        .grp (ralts [rlit "engineer", rlit "developer", rlit "architect", rlit "analyst",
                     rlit "scientist", rlit "manager", rlit "director"]),
        .wb]

/-- app.py `parse_resume_manual`, job-title step: `re.findall(pattern,
text.lower())` for the three patterns in order, results concatenated.  Each
pattern has exactly one capturing group, so `findall` yields the group
captures (the seniority/domain/role keyword), not the full matched phrase. -/
def manual_job_titles (text : String) : List String :=
  [title_pattern1, title_pattern2, title_pattern3].foldl
    (fun acc p => acc ++ refindall p true (pyLower text)) []

/-- Python `str.title()`: alphabetic characters are uppercased after a
non-alphabetic character and lowercased otherwise (ASCII inputs). -/
def pyTitleAux : Bool → List Char → List Char
  | _, [] => []
  | prevAlpha, c :: cs =>
    if c.isAlpha then
      (if prevAlpha then c.toLower else c.toUpper) :: pyTitleAux true cs
    else c :: pyTitleAux false cs

def pyTitle (s : String) : String := String.mk (pyTitleAux false s.toList)

/-- app.py `parse_resume_manual`, final job title:
`job_titles[0].title() if job_titles else ""`. -/
def manual_job_title (text : String) : String :=
  match manual_job_titles text with
  | [] => ""
  | t :: _ => pyTitle t

/-! ## src/parser.py — the `ResumeManager` field groups

The external service call is an oracle of type `Except Unit String`:
`.error ()` models any exception raised during the request (network error,
timeout, non-2xx), `.ok body` models a reply. -/

/-- parser.py `ResumeManager.query_model`: the call is wrapped in
`try/except Exception`; on any raised exception the method logs and returns
`"{}"` in JSON mode and `""` otherwise (elapsed wall-clock time is not
modelled). -/
def query_model (resp : Except Unit String) (jsonMode : Bool) : String :=
  match resp with
  | .ok s => s
  | .error _ => if jsonMode then "{}" else ""

/-- Pydantic v1 validation of a `str`-typed field value: strings pass
through, ints/floats/bools are coerced via `str()` (float repr
renormalisation is not modelled; no claim feeds float lexemes to a
validator), everything else raises a `ValidationError` (`none`). -/
def pyStrField : PyVal → Option String
  | .vstr s => some s
  | .vint n => some (toString n)
  | .vfloat raw => some raw
  | .vbool b => some (if b then "True" else "False")
  | _ => none

/-- A required `str` field: the key must be present and non-null. -/
def reqStr (m : PyDict) (k : String) : Option String :=
  match dictGet? m k with
  | some v => pyStrField v
  | none => none

/-- An `Optional[str]` field: absent or null is valid (`some none`); a
present value of a non-coercible type is a validation error (`none`). -/
def optStr (m : PyDict) (k : String) : Option (Option String) :=
  match dictGet? m k with
  | none => some none
  | some .vnone => some none
  | some v => (pyStrField v).map some

/-- pydantic_models_prompts.py `WorkExperience`: `company_name`, `job_title`,
`start_date`, `end_date` are required `str` fields; `description` is
`Optional[str]`. -/
structure WorkExperience where
  company_name : String
  job_title : String
  start_date : String
  end_date : String
  description : Option String
deriving DecidableEq

/-- Constructing `WorkExperience(**item)`: raises (`none`) when `item` is not
a mapping or a field fails validation; the item is then dropped by
`extract_pydantic`'s per-item `except`. -/
def WorkExperience.validate : PyVal → Option WorkExperience
  | .vdict m => do
    let cn ← reqStr m "company_name"
    let jt ← reqStr m "job_title"
    let sd ← reqStr m "start_date"
    let ed ← reqStr m "end_date"
    let d ← optStr m "description"
    pure ⟨cn, jt, sd, ed, d⟩
  | _ => none

/-- The `json.loads(x.json())` round-trip of a validated object: pydantic
serialises every declared field, with `null` for `None`. -/
def WorkExperience.toPyVal (w : WorkExperience) : PyVal :=
  .vdict [("company_name", .vstr w.company_name), ("job_title", .vstr w.job_title),
          ("start_date", .vstr w.start_date), ("end_date", .vstr w.end_date),
          ("description", match w.description with | some s => .vstr s | none => .vnone)]

/-- pydantic_models_prompts.py `Education`: `qualification` is a required
`str`; `establishment`, `country`, `year` are `Optional[str]`. -/
structure Education where
  qualification : String
  establishment : Option String
  country : Option String
  year : Option String
deriving DecidableEq

def Education.validate : PyVal → Option Education
  | .vdict m => do
    let q ← reqStr m "qualification"
    let e ← optStr m "establishment"
    let c ← optStr m "country"
    let y ← optStr m "year"
    pure ⟨q, e, c, y⟩
  | _ => none

def Education.toPyVal (e : Education) : PyVal :=
  let f : Option String → PyVal := fun o => match o with | some s => .vstr s | none => .vnone
  .vdict [("qualification", .vstr e.qualification), ("establishment", f e.establishment),
          ("country", f e.country), ("year", f e.year)]

/-- parser.py `ResumeManager.extract_pydantic`.  The whole body is wrapped in
`try/except Exception` returning `([], seconds)`, so a raised request
exception (`.error`), a `json.JSONDecodeError`, or the `AttributeError` /
`TypeError` raised when the parsed top level is not a dict all yield `[]`.
When the top level is a dict: if it has a `'data'` key holding a list, those
items are validated one by one (failing items are dropped, siblings kept);
otherwise the loop `for key, value in parsed_result.items()` collects the
items of every list-typed top-level value, in key order. -/
def extract_pydantic {α : Type} (validate : PyVal → Option α) (resp : Except Unit String) :
    List α :=
  match resp with
  | .error _ => []
  | .ok content =>
    match pyParse content with
    | none => []
    | some (.vdict kvs) =>
      match dictGet? kvs "data" with
      | some (.vlist items) => items.filterMap validate
      | _ =>
        ((kvs.filterMap fun kv =>
            match kv.2 with
            | .vlist l => some l
            | _ => none).flatten).filterMap validate
    | some _ => []

/-- Result of one run of a field-group extraction method: the value(s) it
stores into `self.output`, plus whether the `except` fallback branch ran. -/
structure SkillsRun where
  skills : PyVal
  professional_development : PyVal
  other_info : PyVal
  usedFallback : Bool


/-- parser.py `ResumeManager.extract_skills`, try branch: parse the reply and
read the three keys with `.get`.  Raises (`.error`) when `json.loads` fails
or when the parsed value is not a dict (`.get` then raises
`AttributeError`/`TypeError`, caught by the same `except`). -/
def skills_try (body : String) : Except Unit (PyVal × PyVal × PyVal) :=
  match pyParse body with
  | some (.vdict m) =>
    .ok ((dictGet? m "skills").getD (.vlist []),
         (dictGet? m "professional_development").getD (.vlist []),
         (dictGet? m "other").getD (.vlist []))
  | some _ => .error ()
  | none => .error ()

/-- parser.py fallback comma-split:
`[skill.strip() for skill in output.split(',') if skill.strip()]`. -/
def split_comma_skills (output : String) : List String :=
  (pySplitOn ',' output).filterMap fun s =>
    if pyStrip s = "" then none else some (pyStrip s)

/-- parser.py `ResumeManager.extract_skills`, except branch: issue the
plain-text fallback prompt and comma-split the reply when it is non-empty
(the record's other two fields keep their template defaults `[]`). -/
def skills_fallback (fallback : Except Unit String) : SkillsRun :=
  if query_model fallback false = "" then ⟨.vlist [], .vlist [], .vlist [], true⟩
  else ⟨.vlist ((split_comma_skills (query_model fallback false)).map .vstr),
        .vlist [], .vlist [], true⟩

/-- parser.py `ResumeManager.extract_skills`: Primary via `query_model`
(JSON mode) on the skills prompt; on any exception from the try branch, the
fallback runs.  `primary` and `fallback` are the service oracles for the
two calls. -/
def extract_skills (primary fallback : Except Unit String) : SkillsRun :=
  match skills_try (query_model primary true) with
  | .ok (s, p, o) => ⟨s, p, o, false⟩
  | .error _ => skills_fallback fallback

/-- parser.py `ResumeManager.extract_basic_info`, try branch: parse the
reply, read `name`/`job_title`/`bio` with `.get(..., '')`, and copy
`location`/`phone` into the contact block when present.  Raises (`.error`)
when `json.loads` fails (`JSONDecodeError`) or when the parsed value is not
a dict (`.get` then raises `AttributeError`, caught by the method's
`except Exception`).  After `json.loads` succeeds on a dict, no statement
in the branch can raise. -/
def basic_info_try (body : String) :
    Except Unit (PyVal × PyVal × PyVal × Option PyVal × Option PyVal) :=
  match pyParse body with
  | some (.vdict m) =>
    .ok ((dictGet? m "name").getD (.vstr ""),
         (dictGet? m "job_title").getD (.vstr ""),
         (dictGet? m "bio").getD (.vstr ""),
         dictGet? m "location",
         dictGet? m "phone")
  | some _ => .error ()
  | none => .error ()

/-- parser.py `ResumeManager.fallback_basic_info`: two plain-text queries
(name, then current/last job title); each reply is stripped when non-empty
(`name.strip() if name else ""`).  `query_model` returns a string on every
path, so the branch's own `try` never fires in the model. -/
def fallback_basic_info (nameResp titleResp : Except Unit String) : PyVal × PyVal :=
  ((if query_model nameResp false = "" then .vstr ""
    else .vstr (pyStrip (query_model nameResp false))),
   (if query_model titleResp false = "" then .vstr ""
    else .vstr (pyStrip (query_model titleResp false))))

/-- The values `extract_basic_info` stores into the record: the three
top-level fields, the two optional contact writes (`none` = key absent, no
write), and whether the fallback ran.  (The unconditional email/URL
extraction at the end of the method is the Contact-Detail Extractor,
modelled separately by `extract_emails`.) -/
structure BasicInfoRun where
  candidate_name : PyVal
  job_title : PyVal
  bio : PyVal
  location : Option PyVal
  phone_number : Option PyVal
  usedFallback : Bool

/-- parser.py `ResumeManager.extract_basic_info`: Primary via `query_model`
(JSON mode); on `JSONDecodeError` or any other exception from the try
branch, `fallback_basic_info` runs (the bio keeps its template default and
the contact block is not written). -/
def extract_basic_info (primary nameFb titleFb : Except Unit String) : BasicInfoRun :=
  match basic_info_try (query_model primary true) with
  | .ok (n, jt, b, loc, ph) => ⟨n, jt, b, loc, ph, false⟩
  | .error _ =>
    ⟨(fallback_basic_info nameFb titleFb).1, (fallback_basic_info nameFb titleFb).2,
     .vstr "", none, none, true⟩

/-- The education slot of the record: the Primary path stores a list of
serialised entries, the fallback stores the raw reply text (or `""`). -/
inductive EduField where
  | items (l : List PyVal)
  | raw (s : String)


structure EducationRun where
  education : EduField
  usedFallback : Bool


/-- parser.py `ResumeManager.extract_education`, try branch.  It calls
`extract_pydantic` (which never raises) and serialises the validated
objects; no statement in the branch can raise, so it is always `.ok`. -/
def education_try (primary : Except Unit String) : Except Unit (List PyVal) :=
  .ok ((extract_pydantic Education.validate primary).map Education.toPyVal)

/-- parser.py `ResumeManager.extract_education`: on an exception from the try
branch, the plain-text education fallback prompt is issued and its raw reply
stored (`output if output else ""`). -/
def extract_education (primary fallback : Except Unit String) : EducationRun :=
  match education_try primary with
  | .ok l => ⟨.items l, false⟩
  | .error _ => ⟨.raw (query_model fallback false), true⟩

/-- parser.py `ResumeManager.fallback_extract_work_experience`, line parsing:
skip lines containing `"answer"` (case-insensitively) or blank lines; split
on commas; skip blank company names; the role defaults to `""`. -/
def parse_company_lines (output : String) : List (String × String) :=
  (pySplitOn '\n' output).filterMap fun line =>
    if pySubstr "answer" (pyLower line) || pyStrip line = "" then none
    else if pyStrip ((pySplitOn ',' line).headD "") = "" then none
    else some (pyStrip ((pySplitOn ',' line).headD ""),
      if 1 < (pySplitOn ',' line).length
      then pyStrip (((pySplitOn ',' line).drop 1).headD "") else "")

/-- parser.py `ResumeManager.get_intermediary_work_experience` for one
company: query in JSON mode (so a raised request exception yields `"{}"`),
parse, and append the parsed JSON — whatever its shape — to
`self.output['work_output']`; a `JSONDecodeError` (or any other exception)
appends nothing. -/
def get_intermediary_work_experience (resp : Except Unit String) : Option PyVal :=
  pyParse (query_model resp true)

/-- parser.py `ResumeManager.fallback_extract_work_experience`: ask for the
company list, then run one drill-down per discovered company.  `drill` is
the oracle for the per-company service calls.  The concurrent appends are
modelled in discovery order (the claims settled here do not depend on the
interleaving). -/
def fallback_extract_work_experience (companies : Except Unit String)
    (drill : String → String → Except Unit String) : List PyVal :=
  (parse_company_lines (query_model companies false)).filterMap fun cr =>
    get_intermediary_work_experience (drill cr.1 cr.2)

structure WorkRun where
  work_output : List PyVal
  usedFallback : Bool


/-- parser.py `ResumeManager.extract_work_experience`, try branch: like
education, nothing in it can raise. -/
def work_try (primary : Except Unit String) : Except Unit (List PyVal) :=
  .ok ((extract_pydantic WorkExperience.validate primary).map WorkExperience.toPyVal)

/-- parser.py `ResumeManager.extract_work_experience`: Primary via
`extract_pydantic`; the `except` branch runs the per-company fallback. -/
def extract_work_experience (primary companies : Except Unit String)
    (drill : String → String → Except Unit String) : WorkRun :=
  match work_try primary with
  | .ok l => ⟨l, false⟩
  | .error _ => ⟨fallback_extract_work_experience companies drill, true⟩

/-! ## src/utils.py — `output_template` and `sanitize_output`

`sanitize_output` starts from `output_template.copy()`, a SHALLOW copy: the
copy's `'contact_info'` slot is the very dict object stored in the
module-level `output_template`.  In-place updates through that slot (the
contact merge and the email fix) therefore mutate the module-level template
and are visible to later calls.  The model threads the template's contact
dict explicitly: `sanitize_output t0 x` takes the template contact dict's
current contents `t0` and returns the produced record together with the
template contact dict's contents after the call.  The top-level template
values are never mutated in place (only the copy is assigned to), so they
stay at their literals.  `sanitize_output` has no `try`, so a `TypeError`
raised inside `validate_email_format` propagates (`.error`). -/

def output_template_contact : PyDict :=
  [("location", .vstr ""), ("phone_number", .vstr ""),
   ("email_address", .vlist []), ("personal_urls", .vlist [])]

/-- The key iteration order of `output_template` (and of every record built
from its copy: top-level assignment never adds keys). -/
def templateKeys : List String :=
  ["candidate_name", "contact_info", "job_title", "bio", "work_output",
   "skills", "education", "professional_development", "other_info"]

/-- A record with `output_template`'s keys, in template order. -/
def mk9 (cn ci jt bio wo sk ed pd oi : PyVal) : PyDict :=
  [("candidate_name", cn), ("contact_info", ci), ("job_title", jt), ("bio", bio),
   ("work_output", wo), ("skills", sk), ("education", ed),
   ("professional_development", pd), ("other_info", oi)]

/-- `output_template.copy()` where the template's contact dict currently
holds `tci` (the slot aliases that dict). -/
def templateTop (tci : PyDict) : PyDict :=
  mk9 (.vstr "") (.vdict tci) (.vstr "") (.vstr "")
      (.vlist []) (.vlist []) (.vlist []) (.vlist []) (.vlist [])

/-- The nested-contact branch of the key loop: for every key of the
sanitized contact dict, copy the input's truthy value, in place. -/
def mergeContact (tci d : PyDict) : PyDict :=
  tci.foldl (fun acc p =>
    match dictGet? d p.1 with
    | some v => if pyTruthy v then dictSet acc p.1 v else acc
    | none => acc) tci

/-- One iteration of `for key in sanitized.keys()`: copy `output_data[key]`
when present and not `None`; `contact_info` is merged key-by-key when the
incoming value is a dict, and plainly assigned (breaking the template alias)
otherwise. -/
def sanitizeStep (x : PyDict) (san : PyDict) (key : String) : PyDict :=
  match dictGet? x key with
  | none => san
  | some v =>
    match v with
    | .vnone => san
    | _ =>
      if key = "contact_info" then
        match v with
        | .vdict d =>
          match dictGet? san "contact_info" with
          | some (.vdict tci) => dictSet san "contact_info" (.vdict (mergeContact tci d))
          | _ => san
            -- unreachable: the slot still holds the template dict when this
            -- key is reached (the loop touches it exactly once)
        | _ => dictSet san key v
      else dictSet san key v

def copy_loop (x : PyDict) (san : PyDict) : PyDict :=
  templateKeys.foldl (sanitizeStep x) san

def list_fields : List String :=
  ["skills", "professional_development", "other_info", "work_output", "education"]

/-- One iteration of the list-normalisation loop: a non-list value is wrapped
in a singleton list when truthy and replaced by `[]` otherwise. -/
def fixListField (san : PyDict) (f : String) : PyDict :=
  match dictGet? san f with
  | some (.vlist _) => san
  | some v => dictSet san f (if pyTruthy v then .vlist [v] else .vlist [])
  | none => san

/-- utils.py `validate_email_format` restricted to one contact value: when
`'email_address' in ci` holds, a string value is wrapped in a list and any
other non-list value is replaced by `[]` (lists are left untouched).  On a
non-dict `ci` the membership test can raise `TypeError` (non-iterable), and
when it succeeds the subscript `ci['email_address']` raises `TypeError`
(string/list indices must be integers). -/
def emailFixCi : PyVal → Except Unit PyVal
  | .vdict m =>
    match dictGet? m "email_address" with
    | none => .ok (.vdict m)
    | some (.vstr s) => .ok (.vdict (dictSet m "email_address" (.vlist [.vstr s])))
    | some (.vlist _) => .ok (.vdict m)
    | some _ => .ok (.vdict (dictSet m "email_address" (.vlist [])))
  | v =>
    match pyIn "email_address" v with
    | .ok b => if b then .error () else .ok v
    | .error _ => .error ()

/-- utils.py `validate_email_format` on the sanitized record (which always
has a `'contact_info'` key). -/
def validate_email_format (san : PyDict) : Except Unit PyDict :=
  match dictGet? san "contact_info" with
  | none => .ok san
  | some ci => (emailFixCi ci).map fun ci' => dictSet san "contact_info" ci'

/-- The contact value of a record (used to read the aliased slot). -/
def ciSlotDict (san : PyDict) : PyDict :=
  match dictGet? san "contact_info" with
  | some (.vdict m) => m
  | _ => []

/-- Contents of the module-level template's contact dict after one
`sanitize_output` call: the alias is broken only when the loop rebound the
slot to a non-dict input value (then the template dict was never touched);
otherwise the slot still is the template dict and its final contents are the
record's. -/
def newTemplateCi (t0 : PyDict) (x : PyDict) (san : PyDict) : PyDict :=
  match dictGet? x "contact_info" with
  | some v =>
    match v with
    | .vnone => ciSlotDict san
    | .vdict _ => ciSlotDict san
    | _ => t0
  | none => ciSlotDict san

/-- utils.py `sanitize_output`: key-copy loop, list normalisation, email
format validation.  Returns the produced record and the template contact
dict's contents after the call. -/
def sanitize_output (t0 x : PyDict) : Except Unit (PyDict × PyDict) :=
  (validate_email_format (list_fields.foldl fixListField (copy_loop x (templateTop t0)))).map
    fun san => (san, newTemplateCi t0 x san)

/-! ## Characterisation of `sanitize_output`

The key loop touches each of the nine template keys independently, so the
produced record is described field-by-field by `copyVal` / `ciStep` /
`listFix` below; `sanitize_output_eq` proves the equation. -/

/-- Effect of the key loop on one plain field. -/
def copyVal (x : PyDict) (k : String) (old : PyVal) : PyVal :=
  match dictGet? x k with
  | none => old
  | some .vnone => old
  | some v => v

/-- Effect of the key loop on the contact slot (whose current value is
`cur`). -/
def ciStep (x : PyDict) (cur : PyVal) : PyVal :=
  match dictGet? x "contact_info" with
  | none => cur
  | some .vnone => cur
  | some (.vdict d) =>
    match cur with
    | .vdict t => .vdict (mergeContact t d)
    | _ => cur
  | some v => v

/-- Effect of the list-normalisation loop on one list field's value. -/
def listFix (v : PyVal) : PyVal :=
  match v with
  | .vlist _ => v
  | _ => if pyTruthy v then .vlist [v] else .vlist []

/-- The record produced by `sanitize_output` for input `x`, given the final
contact value `ci'`. -/
def sanRecord (x : PyDict) (ci' : PyVal) : PyDict :=
  mk9 (copyVal x "candidate_name" (.vstr "")) ci'
      (copyVal x "job_title" (.vstr "")) (copyVal x "bio" (.vstr ""))
      (listFix (copyVal x "work_output" (.vlist [])))
      (listFix (copyVal x "skills" (.vlist [])))
      (listFix (copyVal x "education" (.vlist [])))
      (listFix (copyVal x "professional_development" (.vlist [])))
      (listFix (copyVal x "other_info" (.vlist [])))

/-! ## Concrete inputs used by the claim theorems -/

/-- The scenario text of spec §8: three lines, name / title / email. -/
def janeText : String := "Jane A. Doe\nSenior Software Engineer\njane.doe@example.com"

/-- A service reply whose `data` list holds one invalid item (missing the
required `company_name`) followed by one valid item. -/
def c3input : String :=
  "\x7b\"data\": [\x7b\"job_title\": \"Dev\"\x7d, \x7b\"company_name\": \"Acme\", \"job_title\": \"Dev\", \"start_date\": \"None\", \"end_date\": \"None\"\x7d]\x7d"

/-- The parse of `c3input` (object keys in document order). -/
def c3parsed : PyDict :=
  [("data", .vlist
     [.vdict [("job_title", .vstr "Dev")],
      .vdict [("company_name", .vstr "Acme"), ("job_title", .vstr "Dev"),
              ("start_date", .vstr "None"), ("end_date", .vstr "None")]])]

/-- A service reply with no `data` field and two top-level list values. -/
def c4input : String :=
  "\x7b\"x\": [\x7b\"qualification\": \"BS\"\x7d], \"y\": [\x7b\"qualification\": \"MS\"\x7d]\x7d"

/-- The parse of `c4input`. -/
def c4parsed : PyDict :=
  [("x", .vlist [.vdict [("qualification", .vstr "BS")]]),
   ("y", .vlist [.vdict [("qualification", .vstr "MS")]])]

/-- A service reply whose single work-experience item has a present but
blank `company_name`. -/
def c5input : String :=
  "\x7b\"data\": [\x7b\"company_name\": \"\", \"job_title\": \"Dev\", \"start_date\": \"None\", \"end_date\": \"None\"\x7d]\x7d"

/-- Record A for the interference scenario: a truthy contact value. -/
def recA : PyDict := [("contact_info", .vdict [("location", .vstr "Paris")])]

/-- Record B for the interference scenario: an empty input record. -/
def recB : PyDict := []

/-- Observation used to compare sanitized records: the contact location. -/
def contactLocation (san : PyDict) : String :=
  match dictGet? (ciSlotDict san) "location" with
  | some (.vstr s) => s
  | _ => ""

theorem sanitizeStep_cn (x : PyDict) (a b c d e f g h i : PyVal) :
    sanitizeStep x (mk9 a b c d e f g h i) "candidate_name" =
      mk9 (copyVal x "candidate_name" a) b c d e f g h i := by
  unfold sanitizeStep copyVal
  cases hx : dictGet? x "candidate_name" with
  | none => rfl
  | some v => cases v <;> rfl

theorem sanitizeStep_ci (x : PyDict) (a b c d e f g h i : PyVal) :
    sanitizeStep x (mk9 a b c d e f g h i) "contact_info" =
      mk9 a (ciStep x b) c d e f g h i := by
  unfold sanitizeStep ciStep
  cases hx : dictGet? x "contact_info" with
  | none => rfl
  | some v => cases v <;> first | rfl | (cases b <;> rfl)

theorem sanitizeStep_jt (x : PyDict) (a b c d e f g h i : PyVal) :
    sanitizeStep x (mk9 a b c d e f g h i) "job_title" =
      mk9 a b (copyVal x "job_title" c) d e f g h i := by
  unfold sanitizeStep copyVal
  cases hx : dictGet? x "job_title" with
  | none => rfl
  | some v => cases v <;> rfl

theorem sanitizeStep_bio (x : PyDict) (a b c d e f g h i : PyVal) :
    sanitizeStep x (mk9 a b c d e f g h i) "bio" =
      mk9 a b c (copyVal x "bio" d) e f g h i := by
  unfold sanitizeStep copyVal
  cases hx : dictGet? x "bio" with
  | none => rfl
  | some v => cases v <;> rfl

theorem sanitizeStep_wo (x : PyDict) (a b c d e f g h i : PyVal) :
    sanitizeStep x (mk9 a b c d e f g h i) "work_output" =
      mk9 a b c d (copyVal x "work_output" e) f g h i := by
  unfold sanitizeStep copyVal
  cases hx : dictGet? x "work_output" with
  | none => rfl
  | some v => cases v <;> rfl

theorem sanitizeStep_sk (x : PyDict) (a b c d e f g h i : PyVal) :
    sanitizeStep x (mk9 a b c d e f g h i) "skills" =
      mk9 a b c d e (copyVal x "skills" f) g h i := by
  unfold sanitizeStep copyVal
  cases hx : dictGet? x "skills" with
  | none => rfl
  | some v => cases v <;> rfl

theorem sanitizeStep_ed (x : PyDict) (a b c d e f g h i : PyVal) :
    sanitizeStep x (mk9 a b c d e f g h i) "education" =
      mk9 a b c d e f (copyVal x "education" g) h i := by
  unfold sanitizeStep copyVal
  cases hx : dictGet? x "education" with
  | none => rfl
  | some v => cases v <;> rfl

theorem sanitizeStep_pd (x : PyDict) (a b c d e f g h i : PyVal) :
    sanitizeStep x (mk9 a b c d e f g h i) "professional_development" =
      mk9 a b c d e f g (copyVal x "professional_development" h) i := by
  unfold sanitizeStep copyVal
  cases hx : dictGet? x "professional_development" with
  | none => rfl
  | some v => cases v <;> rfl

theorem sanitizeStep_oi (x : PyDict) (a b c d e f g h i : PyVal) :
    sanitizeStep x (mk9 a b c d e f g h i) "other_info" =
      mk9 a b c d e f g h (copyVal x "other_info" i) := by
  unfold sanitizeStep copyVal
  cases hx : dictGet? x "other_info" with
  | none => rfl
  | some v => cases v <;> rfl

theorem copy_loop_eq (x : PyDict) (a b c d e f g h i : PyVal) :
    copy_loop x (mk9 a b c d e f g h i) =
      mk9 (copyVal x "candidate_name" a) (ciStep x b)
          (copyVal x "job_title" c) (copyVal x "bio" d)
          (copyVal x "work_output" e) (copyVal x "skills" f)
          (copyVal x "education" g) (copyVal x "professional_development" h)
          (copyVal x "other_info" i) := by
  show List.foldl (sanitizeStep x) (mk9 a b c d e f g h i) templateKeys = _
  rw [templateKeys]
  simp only [List.foldl_cons, List.foldl_nil, sanitizeStep_cn, sanitizeStep_ci,
    sanitizeStep_jt, sanitizeStep_bio, sanitizeStep_wo, sanitizeStep_sk,
    sanitizeStep_ed, sanitizeStep_pd, sanitizeStep_oi]

theorem fixListField_sk (a b c d e f g h i : PyVal) :
    fixListField (mk9 a b c d e f g h i) "skills" = mk9 a b c d e (listFix f) g h i := by
  unfold fixListField listFix
  cases f <;> rfl

theorem fixListField_pd (a b c d e f g h i : PyVal) :
    fixListField (mk9 a b c d e f g h i) "professional_development" =
      mk9 a b c d e f g (listFix h) i := by
  unfold fixListField listFix
  cases h <;> rfl

theorem fixListField_oi (a b c d e f g h i : PyVal) :
    fixListField (mk9 a b c d e f g h i) "other_info" =
      mk9 a b c d e f g h (listFix i) := by
  unfold fixListField listFix
  cases i <;> rfl

theorem fixListField_wo (a b c d e f g h i : PyVal) :
    fixListField (mk9 a b c d e f g h i) "work_output" =
      mk9 a b c d (listFix e) f g h i := by
  unfold fixListField listFix
  cases e <;> rfl

theorem fixListField_ed (a b c d e f g h i : PyVal) :
    fixListField (mk9 a b c d e f g h i) "education" =
      mk9 a b c d e f (listFix g) h i := by
  unfold fixListField listFix
  cases g <;> rfl

theorem fix_lists_eq (a b c d e f g h i : PyVal) :
    list_fields.foldl fixListField (mk9 a b c d e f g h i) =
      mk9 a b c d (listFix e) (listFix f) (listFix g) (listFix h) (listFix i) := by
  show List.foldl fixListField _ list_fields = _
  rw [list_fields]
  simp only [List.foldl_cons, List.foldl_nil, fixListField_sk, fixListField_pd,
    fixListField_oi, fixListField_wo, fixListField_ed]

theorem validate_email_format_mk9 (a b c d e f g h i : PyVal) :
    validate_email_format (mk9 a b c d e f g h i) =
      (emailFixCi b).map fun ci' => mk9 a ci' c d e f g h i := by
  show (emailFixCi b).map _ = _
  cases hb : emailFixCi b <;> rfl

/-- Field-by-field description of `sanitize_output`. -/
theorem sanitize_output_eq (t0 x : PyDict) :
    sanitize_output t0 x =
      (emailFixCi (ciStep x (.vdict t0))).map fun ci' =>
        (sanRecord x ci', newTemplateCi t0 x (sanRecord x ci')) := by
  unfold sanitize_output
  rw [show templateTop t0 = mk9 (.vstr "") (.vdict t0) (.vstr "") (.vstr "")
        (.vlist []) (.vlist []) (.vlist []) (.vlist []) (.vlist []) from rfl,
      copy_loop_eq, fix_lists_eq, validate_email_format_mk9]
  cases h : emailFixCi (ciStep x (.vdict t0)) <;> rfl

/-! ## Idempotence infrastructure -/

theorem dictSet_self {m : PyDict} {k : String} {v : PyVal}
    (h : dictGet? m k = some v) : dictSet m k v = m := by
  induction m with
  | nil => simp [dictGet?] at h
  | cons p rest ih =>
    obtain ⟨k', v'⟩ := p
    unfold dictGet? at h
    unfold dictSet
    by_cases hk : k' = k
    · simp only [hk, if_true] at h ⊢
      cases h
      rfl
    · simp only [hk, if_false] at h ⊢
      rw [ih h]

theorem dictGet_dictSet (m : PyDict) (k : String) (v : PyVal) :
    dictGet? (dictSet m k v) k = some v := by
  induction m with
  | nil => simp [dictSet, dictGet?]
  | cons p rest ih =>
    obtain ⟨k', v'⟩ := p
    unfold dictSet
    by_cases hk : k' = k
    · simp [dictGet?, hk]
    · simp [dictGet?, hk, ih]

theorem mergeContact_self (m : PyDict) : mergeContact m m = m := by
  unfold mergeContact
  have step : ∀ l : PyDict, List.foldl
      (fun acc p =>
        match dictGet? m p.1 with
        | some v => if pyTruthy v then dictSet acc p.1 v else acc
        | none => acc) m l = m := by
    intro l
    induction l with
    | nil => rfl
    | cons p rest ih =>
      have hstep :
          (match dictGet? m p.1 with
           | some v => if pyTruthy v then dictSet m p.1 v else m
           | none => m) = m := by
        cases h : dictGet? m p.1 with
        | none => rfl
        | some v =>
          by_cases ht : pyTruthy v
          · simp only [ht, if_true]
            exact dictSet_self h
          · simp [ht]
      simpa [hstep] using ih
  exact step m

theorem listFix_eq_vlist (v : PyVal) : ∃ l, listFix v = .vlist l := by
  cases v <;> simp [listFix] <;> split <;> simp

theorem listFix_idem (v : PyVal) : listFix (listFix v) = listFix v := by
  obtain ⟨l, hl⟩ := listFix_eq_vlist v
  rw [hl]
  rfl

theorem copyVal_some {y : PyDict} {k : String} {c : PyVal}
    (hy : dictGet? y k = some c) (hc : c ≠ .vnone) (d : PyVal) :
    copyVal y k d = c := by
  unfold copyVal
  rw [hy]
  cases c <;> simp_all

theorem copyVal_ne_none {x : PyDict} {k : String} {d : PyVal}
    (hd : d ≠ .vnone) : copyVal x k d ≠ .vnone := by
  unfold copyVal
  cases hx : dictGet? x k with
  | none => exact hd
  | some v => cases v <;> simp_all

theorem emailFixCi_dict_shape {m : PyDict} {w : PyVal}
    (h : emailFixCi (.vdict m) = .ok w) : ∃ m', w = .vdict m' := by
  simp only [emailFixCi] at h
  cases hm : dictGet? m "email_address" with
  | none =>
    rw [hm] at h
    injection h with h
    exact ⟨m, h.symm⟩
  | some u =>
    rw [hm] at h
    cases u <;> (injection h with h; exact ⟨_, h.symm⟩)

theorem emailFixCi_nondict {v w : PyVal}
    (hv : v.isDict = false) (h : emailFixCi v = .ok w) : w = v := by
  cases v with
  | vdict m => simp [PyVal.isDict] at hv
  | vnone =>
    simp only [emailFixCi, pyIn] at h
    exact Except.noConfusion h
  | vbool b =>
    simp only [emailFixCi, pyIn] at h
    exact Except.noConfusion h
  | vint n =>
    simp only [emailFixCi, pyIn] at h
    exact Except.noConfusion h
  | vfloat r =>
    simp only [emailFixCi, pyIn] at h
    exact Except.noConfusion h
  | vstr s =>
    simp only [emailFixCi, pyIn] at h
    split at h
    · exact Except.noConfusion h
    · injection h with h
      exact h.symm
  | vlist l =>
    simp only [emailFixCi, pyIn] at h
    split at h
    · exact Except.noConfusion h
    · injection h with h
      exact h.symm

theorem emailFixCi_idem {v w : PyVal} (h : emailFixCi v = .ok w) :
    emailFixCi w = .ok w := by
  cases v with
  | vdict m =>
    simp only [emailFixCi] at h
    cases hm : dictGet? m "email_address" with
    | none =>
      rw [hm] at h
      injection h with h
      subst h
      simp only [emailFixCi, hm]
    | some u =>
      rw [hm] at h
      cases u with
      | vstr s =>
        injection h with h
        subst h
        simp only [emailFixCi, dictGet_dictSet]
      | vlist l =>
        injection h with h
        subst h
        simp only [emailFixCi, hm]
      | vnone =>
        injection h with h
        subst h
        simp only [emailFixCi, dictGet_dictSet]
      | vbool b =>
        injection h with h
        subst h
        simp only [emailFixCi, dictGet_dictSet]
      | vint n =>
        injection h with h
        subst h
        simp only [emailFixCi, dictGet_dictSet]
      | vfloat r =>
        injection h with h
        subst h
        simp only [emailFixCi, dictGet_dictSet]
      | vdict m2 =>
        injection h with h
        subst h
        simp only [emailFixCi, dictGet_dictSet]
  | vnone =>
    have hw := emailFixCi_nondict (by rfl) h
    subst hw
    exact h
  | vbool b =>
    have hw := emailFixCi_nondict (by rfl) h
    subst hw
    exact h
  | vint n =>
    have hw := emailFixCi_nondict (by rfl) h
    subst hw
    exact h
  | vfloat r =>
    have hw := emailFixCi_nondict (by rfl) h
    subst hw
    exact h
  | vstr s =>
    have hw := emailFixCi_nondict (by rfl) h
    subst hw
    exact h
  | vlist l =>
    have hw := emailFixCi_nondict (by rfl) h
    subst hw
    exact h

theorem listFix_ne_none (v : PyVal) : listFix v ≠ .vnone := by
  obtain ⟨l, hl⟩ := listFix_eq_vlist v
  rw [hl]
  intro hh
  cases hh

theorem dictGet_sanRecord_ci (x : PyDict) (ci' : PyVal) :
    dictGet? (sanRecord x ci') "contact_info" = some ci' := rfl

/-- Re-running the field pipeline on an already-produced record changes no
field. -/
theorem sanRecord_stable (x : PyDict) (ci' : PyVal) :
    sanRecord (sanRecord x ci') ci' = sanRecord x ci' := by
  have ne1 : copyVal x "candidate_name" (.vstr "") ≠ .vnone :=
    copyVal_ne_none (by intro hh; cases hh)
  have ne2 : copyVal x "job_title" (.vstr "") ≠ .vnone :=
    copyVal_ne_none (by intro hh; cases hh)
  have ne3 : copyVal x "bio" (.vstr "") ≠ .vnone :=
    copyVal_ne_none (by intro hh; cases hh)
  show mk9 (copyVal (sanRecord x ci') "candidate_name" (.vstr "")) ci'
      (copyVal (sanRecord x ci') "job_title" (.vstr ""))
      (copyVal (sanRecord x ci') "bio" (.vstr ""))
      (listFix (copyVal (sanRecord x ci') "work_output" (.vlist [])))
      (listFix (copyVal (sanRecord x ci') "skills" (.vlist [])))
      (listFix (copyVal (sanRecord x ci') "education" (.vlist [])))
      (listFix (copyVal (sanRecord x ci') "professional_development" (.vlist [])))
      (listFix (copyVal (sanRecord x ci') "other_info" (.vlist []))) = sanRecord x ci'
  rw [copyVal_some (y := sanRecord x ci') (k := "candidate_name")
        (c := copyVal x "candidate_name" (.vstr "")) rfl ne1,
      copyVal_some (y := sanRecord x ci') (k := "job_title")
        (c := copyVal x "job_title" (.vstr "")) rfl ne2,
      copyVal_some (y := sanRecord x ci') (k := "bio")
        (c := copyVal x "bio" (.vstr "")) rfl ne3,
      copyVal_some (y := sanRecord x ci') (k := "work_output")
        (c := listFix (copyVal x "work_output" (.vlist []))) rfl (listFix_ne_none _),
      copyVal_some (y := sanRecord x ci') (k := "skills")
        (c := listFix (copyVal x "skills" (.vlist []))) rfl (listFix_ne_none _),
      copyVal_some (y := sanRecord x ci') (k := "education")
        (c := listFix (copyVal x "education" (.vlist []))) rfl (listFix_ne_none _),
      copyVal_some (y := sanRecord x ci') (k := "professional_development")
        (c := listFix (copyVal x "professional_development" (.vlist []))) rfl
        (listFix_ne_none _),
      copyVal_some (y := sanRecord x ci') (k := "other_info")
        (c := listFix (copyVal x "other_info" (.vlist []))) rfl (listFix_ne_none _),
      listFix_idem, listFix_idem, listFix_idem, listFix_idem, listFix_idem]
  rfl

/-- Idempotence of `sanitize_output`, template aliasing included: a second
run on the record produced by a first (completed) run reproduces the record
and the template state exactly. -/
theorem sanitize_output_idem (t0 x r t1 : PyDict)
    (h : sanitize_output t0 x = .ok (r, t1)) :
    sanitize_output t1 r = .ok (r, t1) := by
  rw [sanitize_output_eq] at h
  cases hE : emailFixCi (ciStep x (.vdict t0)) with
  | error e =>
    rw [hE] at h
    exact Except.noConfusion h
  | ok ci' =>
    rw [hE] at h
    injection h with h
    have hr : sanRecord x ci' = r := congrArg Prod.fst h
    have ht : newTemplateCi t0 x (sanRecord x ci') = t1 := congrArg Prod.snd h
    subst hr
    subst ht
    have hfix := emailFixCi_idem hE
    cases hx : dictGet? x "contact_info" with
    | none =>
      have hC : ciStep x (.vdict t0) = .vdict t0 := by simp [ciStep, hx]
      rw [hC] at hE
      obtain ⟨m', rfl⟩ := emailFixCi_dict_shape hE
      have hT : newTemplateCi t0 x (sanRecord x (.vdict m')) = m' := by
        simp [newTemplateCi, hx, ciSlotDict, dictGet_sanRecord_ci]
      rw [hT, sanitize_output_eq]
      have hstep : ciStep (sanRecord x (.vdict m')) (.vdict m') = .vdict m' := by
        simp [ciStep, dictGet_sanRecord_ci, mergeContact_self]
      rw [hstep, hfix]
      have hT2 : newTemplateCi m' (sanRecord x (.vdict m'))
          (sanRecord (sanRecord x (.vdict m')) (.vdict m')) = m' := by
        simp [newTemplateCi, dictGet_sanRecord_ci, sanRecord_stable, ciSlotDict]
      exact congrArg Except.ok (Prod.ext (sanRecord_stable _ _) hT2)
    | some v =>
      cases v with
      | vnone =>
        have hC : ciStep x (.vdict t0) = .vdict t0 := by simp [ciStep, hx]
        rw [hC] at hE
        obtain ⟨m', rfl⟩ := emailFixCi_dict_shape hE
        have hT : newTemplateCi t0 x (sanRecord x (.vdict m')) = m' := by
          simp [newTemplateCi, hx, ciSlotDict, dictGet_sanRecord_ci]
        rw [hT, sanitize_output_eq]
        have hstep : ciStep (sanRecord x (.vdict m')) (.vdict m') = .vdict m' := by
          simp [ciStep, dictGet_sanRecord_ci, mergeContact_self]
        rw [hstep, hfix]
        have hT2 : newTemplateCi m' (sanRecord x (.vdict m'))
            (sanRecord (sanRecord x (.vdict m')) (.vdict m')) = m' := by
          simp [newTemplateCi, dictGet_sanRecord_ci, sanRecord_stable, ciSlotDict]
        exact congrArg Except.ok (Prod.ext (sanRecord_stable _ _) hT2)
      | vdict d =>
        have hC : ciStep x (.vdict t0) = .vdict (mergeContact t0 d) := by simp [ciStep, hx]
        rw [hC] at hE
        obtain ⟨m', rfl⟩ := emailFixCi_dict_shape hE
        have hT : newTemplateCi t0 x (sanRecord x (.vdict m')) = m' := by
          simp [newTemplateCi, hx, ciSlotDict, dictGet_sanRecord_ci]
        rw [hT, sanitize_output_eq]
        have hstep : ciStep (sanRecord x (.vdict m')) (.vdict m') = .vdict m' := by
          simp [ciStep, dictGet_sanRecord_ci, mergeContact_self]
        rw [hstep, hfix]
        have hT2 : newTemplateCi m' (sanRecord x (.vdict m'))
            (sanRecord (sanRecord x (.vdict m')) (.vdict m')) = m' := by
          simp [newTemplateCi, dictGet_sanRecord_ci, sanRecord_stable, ciSlotDict]
        exact congrArg Except.ok (Prod.ext (sanRecord_stable _ _) hT2)
      | vbool b =>
        have hC : ciStep x (.vdict t0) = .vbool b := by simp [ciStep, hx]
        rw [hC] at hE
        have hci : ci' = .vbool b := emailFixCi_nondict (by rfl) hE
        subst hci
        have hT : newTemplateCi t0 x (sanRecord x (.vbool b)) = t0 := by
          simp [newTemplateCi, hx]
        rw [hT, sanitize_output_eq]
        have hstep : ciStep (sanRecord x (.vbool b)) (.vdict t0) = .vbool b := by
          simp [ciStep, dictGet_sanRecord_ci]
        rw [hstep, hfix]
        have hT2 : newTemplateCi t0 (sanRecord x (.vbool b))
            (sanRecord (sanRecord x (.vbool b)) (.vbool b)) = t0 := by
          simp [newTemplateCi, dictGet_sanRecord_ci]
        exact congrArg Except.ok (Prod.ext (sanRecord_stable _ _) hT2)
      | vint n =>
        have hC : ciStep x (.vdict t0) = .vint n := by simp [ciStep, hx]
        rw [hC] at hE
        have hci : ci' = .vint n := emailFixCi_nondict (by rfl) hE
        subst hci
        have hT : newTemplateCi t0 x (sanRecord x (.vint n)) = t0 := by
          simp [newTemplateCi, hx]
        rw [hT, sanitize_output_eq]
        have hstep : ciStep (sanRecord x (.vint n)) (.vdict t0) = .vint n := by
          simp [ciStep, dictGet_sanRecord_ci]
        rw [hstep, hfix]
        have hT2 : newTemplateCi t0 (sanRecord x (.vint n))
            (sanRecord (sanRecord x (.vint n)) (.vint n)) = t0 := by
          simp [newTemplateCi, dictGet_sanRecord_ci]
        exact congrArg Except.ok (Prod.ext (sanRecord_stable _ _) hT2)
      | vfloat fr =>
        have hC : ciStep x (.vdict t0) = .vfloat fr := by simp [ciStep, hx]
        rw [hC] at hE
        have hci : ci' = .vfloat fr := emailFixCi_nondict (by rfl) hE
        subst hci
        have hT : newTemplateCi t0 x (sanRecord x (.vfloat fr)) = t0 := by
          simp [newTemplateCi, hx]
        rw [hT, sanitize_output_eq]
        have hstep : ciStep (sanRecord x (.vfloat fr)) (.vdict t0) = .vfloat fr := by
          simp [ciStep, dictGet_sanRecord_ci]
        rw [hstep, hfix]
        have hT2 : newTemplateCi t0 (sanRecord x (.vfloat fr))
            (sanRecord (sanRecord x (.vfloat fr)) (.vfloat fr)) = t0 := by
          simp [newTemplateCi, dictGet_sanRecord_ci]
        exact congrArg Except.ok (Prod.ext (sanRecord_stable _ _) hT2)
      | vstr s =>
        have hC : ciStep x (.vdict t0) = .vstr s := by simp [ciStep, hx]
        rw [hC] at hE
        have hci : ci' = .vstr s := emailFixCi_nondict (by rfl) hE
        subst hci
        have hT : newTemplateCi t0 x (sanRecord x (.vstr s)) = t0 := by
          simp [newTemplateCi, hx]
        rw [hT, sanitize_output_eq]
        have hstep : ciStep (sanRecord x (.vstr s)) (.vdict t0) = .vstr s := by
          simp [ciStep, dictGet_sanRecord_ci]
        rw [hstep, hfix]
        have hT2 : newTemplateCi t0 (sanRecord x (.vstr s))
            (sanRecord (sanRecord x (.vstr s)) (.vstr s)) = t0 := by
          simp [newTemplateCi, dictGet_sanRecord_ci]
        exact congrArg Except.ok (Prod.ext (sanRecord_stable _ _) hT2)
      | vlist l =>
        have hC : ciStep x (.vdict t0) = .vlist l := by simp [ciStep, hx]
        rw [hC] at hE
        have hci : ci' = .vlist l := emailFixCi_nondict (by rfl) hE
        subst hci
        have hT : newTemplateCi t0 x (sanRecord x (.vlist l)) = t0 := by
          simp [newTemplateCi, hx]
        rw [hT, sanitize_output_eq]
        have hstep : ciStep (sanRecord x (.vlist l)) (.vdict t0) = .vlist l := by
          simp [ciStep, dictGet_sanRecord_ci]
        rw [hstep, hfix]
        have hT2 : newTemplateCi t0 (sanRecord x (.vlist l))
            (sanRecord (sanRecord x (.vlist l)) (.vlist l)) = t0 := by
          simp [newTemplateCi, dictGet_sanRecord_ci]
        exact congrArg Except.ok (Prod.ext (sanRecord_stable _ _) hT2)

/-! ## Lemmas about the email dedup loop (claim C6) -/

theorem dedupEmails_sublist (seen : List String) (l : List String) :
    (dedupEmails seen l).Sublist l := by
  induction l generalizing seen with
  | nil => simp [dedupEmails]
  | cons e rest ih =>
    unfold dedupEmails
    by_cases h : seen.contains (pyLower e)
    · simp only [h, if_true]
      exact (ih seen).trans (List.sublist_cons_self e rest)
    · simp only [h, if_false]
      exact (ih (pyLower e :: seen)).cons₂ e

theorem dedupEmails_lower_notin (seen : List String) (l : List String) :
    ∀ e ∈ dedupEmails seen l, seen.contains (pyLower e) = false := by
  induction l generalizing seen with
  | nil => simp [dedupEmails]
  | cons e rest ih =>
    intro a ha
    unfold dedupEmails at ha
    by_cases h : seen.contains (pyLower e)
    · simp only [h, if_true] at ha
      exact ih seen a ha
    · simp only [h, if_false] at ha
      rcases List.mem_cons.mp ha with rfl | ha'
      · exact Bool.not_eq_true _ |>.mp h
      · have := ih (pyLower e :: seen) a ha'
        simp only [List.contains_cons, Bool.or_eq_false_iff] at this
        exact this.2

theorem dedupEmails_pairwise (seen : List String) (l : List String) :
    (dedupEmails seen l).Pairwise (fun a b => pyLower a ≠ pyLower b) := by
  induction l generalizing seen with
  | nil => simp [dedupEmails]
  | cons e rest ih =>
    unfold dedupEmails
    by_cases h : seen.contains (pyLower e)
    · simp only [h, if_true]
      exact ih seen
    · simp only [h, if_false]
      refine List.Pairwise.cons ?_ (ih (pyLower e :: seen))
      intro b hb
      have hni := dedupEmails_lower_notin (pyLower e :: seen) rest b hb
      simp only [List.contains_cons, Bool.or_eq_false_iff] at hni
      intro hEq
      have : (pyLower b == pyLower b) = false := hEq ▸ hni.1
      simp at this

theorem dedupEmails_first (seen : List String) (l : List String) :
    ∀ e ∈ dedupEmails seen l,
      l.find? (fun m => pyLower m == pyLower e) = some e := by
  induction l generalizing seen with
  | nil => simp [dedupEmails]
  | cons m rest ih =>
    intro e he
    unfold dedupEmails at he
    by_cases h : seen.contains (pyLower m)
    · simp only [h, if_true] at he
      have hnot := dedupEmails_lower_notin seen rest e he
      have hne : (pyLower m == pyLower e) = false := by
        cases hbe : pyLower m == pyLower e
        · rfl
        · rw [beq_iff_eq] at hbe
          rw [← hbe] at hnot
          rw [hnot] at h
          exact absurd h (by simp)
      rw [List.find?_cons]
      simp only [hne]
      exact ih seen e he
    · simp only [h, if_false] at he
      rcases List.mem_cons.mp he with rfl | he'
      · rw [List.find?_cons]
        simp
      · have hnot := dedupEmails_lower_notin (pyLower m :: seen) rest e he'
        simp only [List.contains_cons, Bool.or_eq_false_iff] at hnot
        have hne : (pyLower m == pyLower e) = false := by
          cases hbe : pyLower m == pyLower e
          · rfl
          · rw [beq_iff_eq] at hbe
            have h1 := hnot.1
            rw [hbe] at h1
            simp at h1
        rw [List.find?_cons]
        simp only [hne]
        exact ih (pyLower m :: seen) e he'

/-! ## Fallback conditions for the single-call groups (skills, basic info) -/

/-- The skills group's fallback runs exactly when the Primary reply body is
not a JSON object (invalid JSON raises `JSONDecodeError`; a non-dict parse
raises at `.get`). -/
theorem extract_skills_fallback_cond (s : String) (fb : Except Unit String) :
    (extract_skills (.ok s) fb).usedFallback =
      (match pyParse s with | some (.vdict _) => false | _ => true) := by
  have hfb : (skills_fallback fb).usedFallback = true := by
    unfold skills_fallback
    split <;> rfl
  unfold extract_skills
  cases hs : skills_try (query_model (.ok s) true) with
  | ok v =>
    obtain ⟨a, b, c⟩ := v
    unfold skills_try query_model at hs
    cases hp : pyParse s with
    | none =>
      rw [hp] at hs
      exact Except.noConfusion hs
    | some w =>
      rw [hp] at hs
      cases w <;> first
        | exact Except.noConfusion hs
        | rfl
  | error e =>
    rw [hfb]
    unfold skills_try query_model at hs
    cases hp : pyParse s with
    | none => rfl
    | some w =>
      rw [hp] at hs
      cases w <;> first
        | exact Except.noConfusion hs
        | rfl

/-- The basic-info group's fallback runs exactly when the Primary reply
body is not a JSON object, by the same mechanism as the skills group. -/
theorem extract_basic_info_fallback_cond (s : String) (nf tf : Except Unit String) :
    (extract_basic_info (.ok s) nf tf).usedFallback =
      (match pyParse s with | some (.vdict _) => false | _ => true) := by
  unfold extract_basic_info
  cases hs : basic_info_try (query_model (.ok s) true) with
  | ok v =>
    obtain ⟨n, jt, b, loc, ph⟩ := v
    unfold basic_info_try query_model at hs
    cases hp : pyParse s with
    | none =>
      rw [hp] at hs
      exact Except.noConfusion hs
    | some w =>
      rw [hp] at hs
      cases w <;> first
        | exact Except.noConfusion hs
        | rfl
  | error e =>
    unfold basic_info_try query_model at hs
    cases hp : pyParse s with
    | none => rfl
    | some w =>
      rw [hp] at hs
      cases w <;> first
        | exact Except.noConfusion hs
        | rfl

/-! ## The claims -/

/-- C1, counterexample: for the skills group, when the Primary service call
raises, `query_model` swallows the exception and returns `"{}"`; the
fallback comma-split prompt is NOT issued (`usedFallback = false`) and the
record's skills list is left empty rather than set to the comma-split of the
fallback reply. -/
theorem claim_C1_counterexample :
    (extract_skills (.error ()) (.ok "Python, SQL, Docker")).usedFallback = false ∧
    (extract_skills (.error ()) (.ok "Python, SQL, Docker")).skills = .vlist [] :=
  ⟨rfl, rfl⟩

/-- C1, amended: when the Primary service call for the skills group raises,
`query_model` returns `"{}"`, which parses as an empty JSON object, so the
group stores empty lists and never issues the fallback prompt; the failure
is not surfaced as a raised error.  The fallback runs exactly when the
Primary call returns a body that is not a JSON object. -/
theorem claim_C1_theorem :
    (∀ fb, extract_skills (.error ()) fb =
      ⟨.vlist [], .vlist [], .vlist [], false⟩) ∧
    (∀ s fb, (extract_skills (.ok s) fb).usedFallback =
      (match pyParse s with | some (.vdict _) => false | _ => true)) := by
  exact ⟨fun fb => rfl, fun s fb => extract_skills_fallback_cond s fb⟩

/-- C2: for every field group, a Primary attempt that parses without
raising never triggers the fallback, even with zero extracted items.  For
education and work-experience the try branch cannot raise at all (the
Structured Extraction Client catches internally), so the fallback prompt is
never issued and a zero-item Primary run simply leaves the record field
empty.  For skills and basic-info, the fallback runs exactly when the reply
body is not a JSON object (a raised `JSONDecodeError` or `AttributeError`
inside the try), so a successfully parsed object — however empty — never
triggers it. -/
theorem claim_C2_theorem :
    (∀ p f, (extract_education p f).usedFallback = false) ∧
    (∀ p c d, (extract_work_experience p c d).usedFallback = false) ∧
    (∀ p f, extract_pydantic Education.validate p = [] →
      (extract_education p f).education = .items []) ∧
    (∀ p c d, extract_pydantic WorkExperience.validate p = [] →
      (extract_work_experience p c d).work_output = []) ∧
    (∀ s fb, (extract_skills (.ok s) fb).usedFallback =
      (match pyParse s with | some (.vdict _) => false | _ => true)) ∧
    (∀ s nf tf, (extract_basic_info (.ok s) nf tf).usedFallback =
      (match pyParse s with | some (.vdict _) => false | _ => true)) := by
  refine ⟨fun p f => rfl, fun p c d => rfl, ?_, ?_,
    fun s fb => extract_skills_fallback_cond s fb,
    fun s nf tf => extract_basic_info_fallback_cond s nf tf⟩
  · intro p f h
    simp [extract_education, education_try, h]
  · intro p c d h
    simp [extract_work_experience, work_try, h]

/-- C2, witness: a raising Primary call reaches `extract_pydantic`'s catch,
yields zero items, leaves the fields empty and does not run the fallback;
and an empty-but-valid JSON object reply leaves the skills and basic-info
fallbacks unused. -/
theorem claim_C2_witness :
    (extract_education (.error ()) (.ok "x")).usedFallback = false ∧
    (extract_education (.error ()) (.ok "x")).education = .items [] ∧
    (extract_work_experience (.error ()) (.ok "y") (fun _ _ => .error ())).work_output = [] ∧
    (extract_skills (.ok "{}") (.ok "z")).usedFallback = false ∧
    (extract_basic_info (.ok "{}") (.ok "n") (.ok "t")).usedFallback = false :=
  ⟨claim_C2_theorem.1 (.error ()) (.ok "x"),
   claim_C2_theorem.2.2.1 (.error ()) (.ok "x") rfl,
   claim_C2_theorem.2.2.2.1 (.error ()) (.ok "y") (fun _ _ => .error ()) rfl,
   (claim_C2_theorem.2.2.2.2.1 "{}" (.ok "z")).trans rfl,
   (claim_C2_theorem.2.2.2.2.2 "{}" (.ok "n") (.ok "t")).trans rfl⟩

/-- C3: the Structured Extraction Client never raises — a raised request
exception or an unparsable body yields the empty item list — and items are
validated independently: an invalid item among the `data` entries is
dropped while its siblings are kept.  (Elapsed wall-clock time, which the
source returns alongside the list, is not modelled.) -/
theorem claim_C3_theorem {α : Type} (validate : PyVal → Option α) :
    (∀ e, extract_pydantic validate (.error e) = []) ∧
    (∀ s, pyParse s = none → extract_pydantic validate (.ok s) = []) ∧
    (∀ s kvs l1 x l2, pyParse s = some (.vdict kvs) →
      dictGet? kvs "data" = some (.vlist (l1 ++ x :: l2)) →
      validate x = none →
      extract_pydantic validate (.ok s) = (l1 ++ l2).filterMap validate) := by
  refine ⟨fun e => rfl, ?_, ?_⟩
  · intro s h
    simp [extract_pydantic, h]
  · intro s kvs l1 x l2 hp hd hx
    simp [extract_pydantic, hp, hd, List.filterMap_append, List.filterMap_cons, hx]

/-- C3, witness: a raised call and a non-JSON body give `[]`; a `data` list
with one invalid and one valid item gives exactly the valid one. -/
theorem claim_C3_witness :
    extract_pydantic WorkExperience.validate (.error ()) = ([] : List WorkExperience) ∧
    extract_pydantic WorkExperience.validate (.ok "not json") = [] ∧
    extract_pydantic WorkExperience.validate (.ok c3input) =
      [⟨"Acme", "Dev", "None", "None", none⟩] := by
  refine ⟨(claim_C3_theorem WorkExperience.validate).1 (),
    (claim_C3_theorem WorkExperience.validate).2.1 "not json" rfl, ?_⟩
  have h := (claim_C3_theorem WorkExperience.validate).2.2 c3input c3parsed
    [] (.vdict [("job_title", .vstr "Dev")])
    [.vdict [("company_name", .vstr "Acme"), ("job_title", .vstr "Dev"),
             ("start_date", .vstr "None"), ("end_date", .vstr "None")]]
    rfl rfl rfl
  exact h.trans rfl

/-- C4, counterexample: on a top-level object with no `data` list and two
list-typed values, the client includes the items of BOTH lists (the claim
says elements of any later list-typed value are not included). -/
theorem claim_C4_counterexample :
    extract_pydantic Education.validate (.ok c4input) =
      [⟨"BS", none, none, none⟩, ⟨"MS", none, none, none⟩] ∧
    extract_pydantic Education.validate (.ok c4input) ≠ [⟨"BS", none, none, none⟩] := by
  constructor
  · rfl
  · rw [show extract_pydantic Education.validate (.ok c4input) =
      [⟨"BS", none, none, none⟩, ⟨"MS", none, none, none⟩] from rfl]
    decide

/-- C4, amended: when the parsed reply is an object without a list-valued
`data` key, the client concatenates the elements of ALL top-level
list-typed values, in key order (so with no list-typed value the result is
empty). -/
theorem claim_C4_theorem {α : Type} (validate : PyVal → Option α) (s : String) (kvs : PyDict)
    (hp : pyParse s = some (.vdict kvs))
    (hd : ∀ l, dictGet? kvs "data" ≠ some (.vlist l)) :
    extract_pydantic validate (.ok s) =
      ((kvs.filterMap fun kv =>
          match kv.2 with
          | .vlist l => some l
          | _ => none).flatten).filterMap validate := by
  simp only [extract_pydantic, hp]

/-- C4, witness: both top-level lists of `c4input` contribute their items. -/
theorem claim_C4_witness :
    extract_pydantic Education.validate (.ok c4input) =
      [⟨"BS", none, none, none⟩, ⟨"MS", none, none, none⟩] := by
  have h := claim_C4_theorem Education.validate c4input c4parsed rfl
    (by
      intro l hh
      rw [show dictGet? c4parsed "data" = none from rfl] at hh
      exact Option.noConfusion hh)
  exact h.trans rfl

/-- C5, counterexample: a work-experience item whose `company_name` is
present but blank passes schema validation and is stored in the record's
work list as a blank-company entry. -/
theorem claim_C5_counterexample :
    (extract_work_experience (.ok c5input) (.error ()) (fun _ _ => .error ())).work_output =
      [.vdict [("company_name", .vstr ""), ("job_title", .vstr "Dev"),
               ("start_date", .vstr "None"), ("end_date", .vstr "None"),
               ("description", .vnone)]] ∧
    (extract_work_experience (.ok c5input) (.error ()) (fun _ _ => .error ())).usedFallback
      = false :=
  ⟨rfl, rfl⟩

/-- C5, amended: Primary schema validation discards items with a MISSING
`company_name`, and the fallback company-discovery skips blank company
names before spawning drill-downs; but a present-and-blank `company_name`
passes schema validation, and drill-down replies are appended without
validation, so blank-company entries can reach the record. -/
theorem claim_C5_theorem :
    (∀ kvs, dictGet? kvs "company_name" = none →
      WorkExperience.validate (.vdict kvs) = none) ∧
    (∀ resp, ∀ cr ∈ parse_company_lines resp, cr.1 ≠ "") := by
  constructor
  · intro kvs h
    simp [WorkExperience.validate, reqStr, h]
  · intro resp cr hcr
    unfold parse_company_lines at hcr
    rcases List.mem_filterMap.mp hcr with ⟨line, _, hline⟩
    split at hline
    · exact Option.noConfusion hline
    · split at hline
      · exact Option.noConfusion hline
      · injection hline with hline
        subst hline
        assumption

/-- C5, witness: an item with no `company_name` key is dropped by
validation, and a discovered company line yields a non-blank name. -/
theorem claim_C5_witness :
    WorkExperience.validate (.vdict [("job_title", .vstr "Dev")]) = none ∧
    ("Acme" : String) ≠ "" :=
  ⟨claim_C5_theorem.1 [("job_title", .vstr "Dev")] rfl,
   claim_C5_theorem.2 "Acme, Dev" ("Acme", "Dev")
     (by
       rw [show parse_company_lines "Acme, Dev" = [("Acme", "Dev")] from rfl]
       exact List.mem_singleton.mpr rfl)⟩

/-- C6, counterexample: the other extraction the claim cites — app.py's
`extract_email`, whose raw result `parse_resume_manual` stores as
`contact_info['email_address']` — performs no deduplication: on a text with
two case-variants of one address both are returned, and they are equal
under case-insensitive comparison, so the claimed universal fails on that
path. -/
theorem claim_C6_counterexample :
    app_extract_email "Bob@X.com bob@x.com" = ["Bob@X.com", "bob@x.com"] ∧
    pyLower "Bob@X.com" = pyLower "bob@x.com" :=
  ⟨rfl, rfl⟩

/-- C6, amended: for every input text, utils.py `extract_emails` — the
extraction the `ResumeManager` pipeline uses to populate
`contact_info['email_address']` — returns a list with no two entries equal
under case-insensitive comparison, as a subsequence of the raw match list
(so entries appear in occurrence order), each entry being the first
occurrence of its case-insensitive class; app.py's deterministic
`extract_email` stores the raw matches without deduplication. -/
theorem claim_C6_theorem (content : String) :
    (extract_emails content).Pairwise (fun a b => pyLower a ≠ pyLower b) ∧
    (extract_emails content).Sublist (findEmails content) ∧
    ∀ e ∈ extract_emails content,
      (findEmails content).find? (fun m => pyLower m == pyLower e) = some e :=
  ⟨dedupEmails_pairwise [] (findEmails content),
   dedupEmails_sublist [] (findEmails content),
   dedupEmails_first [] (findEmails content)⟩

/-- C6, witness: on a text with two case-variant duplicates the first-seen
entry is kept and is the `find?` representative of its class. -/
theorem claim_C6_witness :
    ("Bob@X.com" ∈ extract_emails "Bob@X.com bob@x.com") ∧
    (findEmails "Bob@X.com bob@x.com").find?
      (fun m => pyLower m == pyLower "Bob@X.com") = some "Bob@X.com" := by
  have hmem : "Bob@X.com" ∈ extract_emails "Bob@X.com bob@x.com" := by
    rw [show extract_emails "Bob@X.com bob@x.com" = ["Bob@X.com"] from rfl]
    exact List.mem_singleton.mpr rfl
  exact ⟨hmem, ( claim_C6_theorem "Bob@X.com bob@x.com").2.2 "Bob@X.com" hmem⟩

/-- C7: the Output Normalizer is idempotent — when a first run completes,
re-running it on the produced record (with the template state the first run
left behind) reproduces the same record and template state. -/
theorem claim_C7_theorem (t0 x r t1 : PyDict)
    (h : sanitize_output t0 x = .ok (r, t1)) :
    sanitize_output t1 r = .ok (r, t1) :=
  sanitize_output_idem t0 x r t1 h

/-- C7, witness: the empty input record normalises to the template record,
and re-normalising is a no-op. -/
theorem claim_C7_witness :
    sanitize_output output_template_contact (templateTop output_template_contact) =
      .ok (templateTop output_template_contact, output_template_contact) :=
  claim_C7_theorem output_template_contact [] (templateTop output_template_contact)
    output_template_contact rfl

/-- C8: at the failing input `"(555) 123-4567"` the code returns no phone
number at all — `re.findall` on a pattern with one capturing group returns
only the group captures (here the non-participating country-code group,
`''`), which the length filter then discards — while the claim (and the
function's own docstring) says the 10-digit stripped number is returned. -/
theorem claim_C8_theorem :
    extract_phone_numbers "(555) 123-4567" = [] ∧
    findPhones "(555) 123-4567" = [""] :=
  ⟨rfl, rfl⟩

/-- C9, counterexample: on the scenario text the job-title `findall`
captures are the bare alternation keywords; no match includes
"Software Engineer" (even case-insensitively). -/
theorem claim_C9_counterexample :
    manual_job_titles janeText = ["senior", "software", "engineer"] ∧
    ((manual_job_titles janeText).all fun t => !pySubstr "software engineer" (pyLower t))
      = true :=
  ⟨rfl, rfl⟩

/-- C9, amended: the scenario text yields `candidate_name = "Jane A. Doe"`
and emails `["jane.doe@example.com"]`, but the deterministic job-title
matches are the group captures `["senior", "software", "engineer"]` and the
chosen job title is `"Senior"`; no match includes "Software Engineer". -/
theorem claim_C9_theorem :
    extract_name janeText = "Jane A. Doe" ∧
    app_extract_email janeText = ["jane.doe@example.com"] ∧
    manual_job_titles janeText = ["senior", "software", "engineer"] ∧
    manual_job_title janeText = "Senior" :=
  ⟨rfl, rfl, rfl, rfl⟩

/-- C10: `sanitize_output` is not interference-free across calls — running
it on record A (a truthy contact value) and then on record B yields a
record for B that inherits A's contact location through the shared
module-level template dict, while running B against a fresh template yields
the template default. -/
theorem claim_C10_theorem :
    ((sanitize_output output_template_contact recA).bind fun p =>
      (sanitize_output p.2 recB).map fun q => contactLocation q.1) = .ok "Paris" ∧
    ((sanitize_output output_template_contact recB).map fun q => contactLocation q.1)
      = .ok "" ∧
    ("Paris" : String) ≠ "" :=
  ⟨rfl, rfl, by decide⟩

end ResumeParser
